import Mathlib

/-!
Shallow embedding of the GBU Sports Portal backend (src/main.py, src/schemas.py).

Times are modelled as Unix seconds (naturals); database identifiers (ObjectId)
as naturals. The persistence gateway (database.py: create_document,
get_documents) is not part of src/, so it is modelled from the spec where
needed: records gain a database-assigned identifier and an insertion timestamp
at creation, and get_documents returns the records matching every supplied
filter field, truncated to the limit.
-/

namespace GBU

/-- Default of the AUTH_SECRET environment variable in main.py. -/
def SECRET : String := "gbu-sports-portal-secret"

/-- Python timedelta(days = n) in seconds. -/
def secondsPerDay : Nat := 86400

/-- hash_password from main.py: the sha256 hex digest of password concatenated
with the salt. The sha256 hex digest itself is kept abstract as a function
parameter, since no claim depends on its internals. -/
def hash_password (sha256hex : String → String) (password salt : String) : String :=
  sha256hex (password ++ salt)

/-- User collection record: schemas.User plus the database-assigned identifier
and insertion timestamp added by the gateway (spec section 3). -/
structure User where
  oid : Nat
  name : String
  email : String
  password_hash : String
  role : String
  phone : Option String
  is_active : Bool
  created_at : Nat
deriving DecidableEq, Repr

/-- Gymmembership collection record: schemas.Gymmembership plus identifier and
insertion timestamp. -/
structure Gymmembership where
  oid : Nat
  email : String
  plan : String
  status : String
  start_date : Option Nat
  end_date : Option Nat
  created_at : Nat
deriving DecidableEq, Repr

/-- Payment collection record: schemas.Payment plus identifier and insertion
timestamp. -/
structure Payment where
  oid : Nat
  email : String
  amount : Int
  purpose : String
  method : String
  status : String
  reference : String
  created_at : Nat
deriving DecidableEq, Repr

/-- Match collection record: schemas.Match plus identifier, insertion timestamp
and the update timestamp written by update_match. -/
structure Match where
  oid : Nat
  sport : String
  team_a : String
  team_b : String
  venue : String
  start_time : Nat
  status : String
  score_a : Option String
  score_b : Option String
  details : Option String
  created_at : Nat
  updated_at : Option Nat
deriving DecidableEq, Repr

/-- The document database: one list per collection, in insertion order, plus a
counter supplying fresh database identifiers. -/
structure DBState where
  users : List User
  gymmemberships : List Gymmembership
  payments : List Payment
  matchdocs : List Match
  nextId : Nat
deriving DecidableEq, Repr

def DBState.empty : DBState := ⟨[], [], [], [], 1⟩

/-- register from main.py (POST /api/auth/register). Returns either the
HTTPException (status, detail) or the response (id, token, email, name),
together with the resulting database state. Insertion via create_document is
modelled from the spec: the record gains a fresh identifier and an insertion
timestamp. -/
def register (sha256hex : String → String) (secret : String) (now : Nat)
    (st : DBState) (name email password : String) (phone : Option String) :
    Except (Nat × String) (Nat × String × String × String) × DBState :=
  if st.users.any (fun u => u.email == email) then
    (.error (400, "Email already registered"), st)
  else
    let password_hash := hash_password sha256hex password secret
    let u : User := { oid := st.nextId, name := name, email := email,
                      password_hash := password_hash, role := "student",
                      phone := phone, is_active := true, created_at := now }
    let token := hash_password sha256hex email secret
    (.ok (u.oid, token, email, name),
     { st with users := st.users ++ [u], nextId := st.nextId + 1 })

/-- login from main.py (POST /api/auth/login). Returns the HTTPException
(status, detail) or the response (token, email, name). -/
def login (sha256hex : String → String) (secret : String) (st : DBState)
    (email password : String) :
    Except (Nat × String) (String × String × String) :=
  match st.users.find? (fun u => u.email == email) with
  | none => .error (401, "Invalid credentials")
  | some u =>
    if u.password_hash != hash_password sha256hex password secret then
      .error (401, "Invalid credentials")
    else
      .ok (hash_password sha256hex email secret, email, u.name)

/-- The filter of create_membership: email matches and status is in
["pending", "active"]. -/
def pendingOrActive (email : String) (m : Gymmembership) : Bool :=
  m.email == email && (m.status == "pending" || m.status == "active")

/-- create_membership from main.py (POST /api/gym/membership). find_one with no
sort returns the first stored match. Returns the membership record the response
is built from, together with the resulting state. -/
def create_membership (now : Nat) (st : DBState) (email plan : String) :
    Gymmembership × DBState :=
  match st.gymmemberships.find? (pendingOrActive email) with
  | some existing => (existing, st)
  | none =>
    let gm : Gymmembership := { oid := st.nextId, email := email, plan := plan,
                                status := "pending", start_date := none,
                                end_date := none, created_at := now }
    (gm, { st with gymmemberships := st.gymmemberships ++ [gm],
                   nextId := st.nextId + 1 })

/-- find_one with sort created_at descending: the record with the greatest
created_at (the earliest stored one wins ties, matching a stable descending
sort). -/
def mostRecent : List Gymmembership → Option Gymmembership
  | [] => none
  | m :: ms =>
    match mostRecent ms with
    | none => some m
    | some r => if r.created_at > m.created_at then some r else some m

/-- Most recent membership for an email: find_one on email with sort
created_at descending, as used by create_payment and get_membership. -/
def mostRecentFor (email : String) (l : List Gymmembership) : Option Gymmembership :=
  mostRecent (l.filter (fun m => m.email == email))

/-- create_payment from main.py (POST /api/payments/create). Records the
payment as success, then activates the most recent membership for the email, if
any. Returns (payment_id, status, membership) and the resulting state. -/
def create_payment (now : Nat) (st : DBState) (email : String) (amount : Int)
    (purpose method : String) (reference : Option String) :
    (Nat × String × Option Gymmembership) × DBState :=
  let refv := match reference with
    | some r => if r == "" then "REF-" ++ toString now else r
    | none => "REF-" ++ toString now
  let pay : Payment := { oid := st.nextId, email := email, amount := amount,
                         purpose := purpose, method := method,
                         status := "success", reference := refv,
                         created_at := now }
  let st1 : DBState := { st with payments := st.payments ++ [pay],
                                 nextId := st.nextId + 1 }
  match mostRecentFor email st1.gymmemberships with
  | none => ((pay.oid, "success", none), st1)
  | some m =>
    let delta_days : Nat :=
      if m.plan == "monthly" then 30
      else if m.plan == "quarterly" then 90
      else 365
    let m2 : Gymmembership :=
      { m with
        status := "active",
        start_date := some now,
        end_date := some (now + delta_days * secondsPerDay) }
    let st2 : DBState :=
      { st1 with
        gymmemberships :=
          st1.gymmemberships.map (fun x => if x.oid == m.oid then m2 else x) }
    ((pay.oid, "success", st2.gymmemberships.find? (fun x => x.oid == m.oid)), st2)

/-- Filter dictionary built by list_matches. -/
structure MatchFilter where
  sport : Option String := none
  status : Option String := none
deriving DecidableEq, Repr

/-- A match document satisfies every field present in the filter. -/
def matchesDoc (f : MatchFilter) (m : Match) : Bool :=
  (match f.sport with | some s => m.sport == s | none => true) &&
  (match f.status with | some s => m.status == s | none => true)

/-- Modelled from the spec: get_documents (database.py, not under src/) returns
the records of the collection matching all supplied filter fields, truncated to
the limit, in stored order. -/
def get_documents (f : MatchFilter) (limit : Nat) (l : List Match) : List Match :=
  (l.filter (matchesDoc f)).take limit

/-- Python truthiness of an Optional[str]: None and the empty string are falsy. -/
def truthyStr : Option String → Bool
  | none => false
  | some s => s != ""

/-- list_matches from main.py (GET /api/matches): a query parameter is added to
the filter only when truthy. -/
def list_matches (st : DBState) (sport status : Option String) (limit : Nat) :
    List Match :=
  let f0 : MatchFilter := {}
  let f1 := if truthyStr sport then { f0 with sport := sport } else f0
  let f2 := if truthyStr status then { f1 with status := status } else f1
  get_documents f2 limit st.matchdocs

/-- Body of PATCH /api/matches: every field optional. -/
structure MatchUpdateRequest where
  status : Option String := none
  score_a : Option String := none
  score_b : Option String := none
  details : Option String := none
deriving DecidableEq, Repr

/-- Response of update_match: either the JSON object with updated false, or the
serialized stored document (absent when the id matches nothing). -/
inductive UpdateResult where
  | notUpdated
  | doc (m : Option Match)
deriving DecidableEq, Repr

/-- The Mongo set-update applied by update_match: only the supplied fields plus
a refreshed update timestamp. -/
def applyUpdates (now : Nat) (r : MatchUpdateRequest) (m : Match) : Match :=
  { m with
    status := match r.status with | some v => v | none => m.status,
    score_a := match r.score_a with | some v => some v | none => m.score_a,
    score_b := match r.score_b with | some v => some v | none => m.score_b,
    details := match r.details with | some v => some v | none => m.details,
    updated_at := some now }

/-- update_match from main.py (PATCH /api/matches/id), for a well-formed
match identifier (modelled directly as a Nat, mirroring a parsed ObjectId). -/
def update_match (now : Nat) (st : DBState) (oid : Nat) (r : MatchUpdateRequest) :
    UpdateResult × DBState :=
  if r.status.isNone && r.score_a.isNone && r.score_b.isNone && r.details.isNone then
    (.notUpdated, st)
  else
    let ms := st.matchdocs.map (fun m => if m.oid == oid then applyUpdates now r m else m)
    let st1 : DBState := { st with matchdocs := ms }
    (.doc (ms.find? (fun m => m.oid == oid)), st1)

/-! Serialization helper. A stored document is modelled as an association list
from field names to values; a value carries either a database identifier, a
datetime, or a plain JSON scalar. -/

/-- A field value of a stored document. -/
inductive Value where
  | vId (n : Nat)
  | vDT (t : Nat)
  | vStr (s : String)
  | vInt (n : Int)
  | vBool (b : Bool)
  | vNull
deriving DecidableEq, Repr

abbrev Dict := List (String × Value)

/-- Python truthiness of a field value (ObjectId and datetime are always
truthy). -/
def truthy : Value → Bool
  | .vId _ => true
  | .vDT _ => true
  | .vStr s => s != ""
  | .vInt n => n != 0
  | .vBool b => b
  | .vNull => false

/-- Python str() applied to a field value. The hex rendering of an ObjectId and
the rendering of a datetime are abstract parameters. -/
def pyStr (oidStr dtStr : Nat → String) : Value → String
  | .vId n => oidStr n
  | .vDT t => dtStr t
  | .vStr s => s
  | .vInt n => toString n
  | .vBool b => if b then "True" else "False"
  | .vNull => "None"

/-- Dict read: d.get(k). -/
def getD (k : String) (d : Dict) : Option Value :=
  (d.find? (fun p => p.1 == k)).map Prod.snd

/-- Dict key removal: d.pop(k). -/
def popD (k : String) (d : Dict) : Dict :=
  d.filter (fun p => p.1 != k)

/-- Dict write d[k] = v: replaces the value in place when the key exists,
appends otherwise. -/
def setD (k : String) (v : Value) (d : Dict) : Dict :=
  if d.any (fun p => p.1 == k) then
    d.map (fun p => if p.1 == k then (k, v) else p)
  else d ++ [(k, v)]

/-- The datetime-to-ISO-text pass of serialize_doc on a single field. -/
def renderDT (isoStr : Nat → String) (p : String × Value) : String × Value :=
  match p.2 with
  | .vDT t => (p.1, .vStr (isoStr t))
  | _ => p

/-- serialize_doc from main.py. An empty dict is returned unchanged; a truthy
database identifier is popped and re-entered as a string under id; every
datetime value is rendered as ISO-8601 text (the rendering function isoStr is
an abstract parameter, as is the ObjectId hex rendering oidStr). -/
def serialize_doc (oidStr isoStr : Nat → String) (d : Dict) : Dict :=
  if d.isEmpty then d
  else
    let d1 := match getD "_id" d with
      | some v => if truthy v then setD "id" (.vStr (pyStr oidStr isoStr v)) (popD "_id" d) else d
      | none => d
    d1.map (renderDT isoStr)

/-- The value a field holds after serialization: datetimes become ISO text,
everything else is untouched. -/
def renderVal (isoStr : Nat → String) : Value → Value
  | .vDT t => .vStr (isoStr t)
  | v => v

/-- The activated form of a membership written by create_payment: status
active, the validity window starting now and ending now plus the plan-dependent
number of days. -/
def activated (now : Nat) (m : Gymmembership) : Gymmembership :=
  { m with
    status := "active",
    start_date := some now,
    end_date := some (now +
      (if m.plan == "monthly" then 30
       else if m.plan == "quarterly" then 90
       else 365) * secondsPerDay) }

/-! Concrete sample data, used by witnesses and counterexamples. -/

/-- A stand-in for the sha256 hex digest on sample data. -/
def shaEx : String → String := fun s => "sha256-" ++ s

/-- State after one membership creation for a sample email. -/
def exSt1 : DBState := (create_membership 100 DBState.empty "a@x.com" "monthly").2

/-- State after a payment against that email activated the membership. -/
def exSt2 : DBState :=
  (create_payment 200 exSt1 "a@x.com" 500 "gym_membership" "upi" none).2

/-- A stored membership whose status is already expired. -/
def exExpired : Gymmembership :=
  ⟨5, "b@x.com", "quarterly", "expired", none, none, 50⟩

/-- State holding only the expired membership. -/
def exStE : DBState := ⟨[], [exExpired], [], [], 6⟩

/-- A stored match document. -/
def exMatch : Match :=
  ⟨1, "cricket", "GBU Warriors", "Noida Knights", "GBU Cricket Ground", 0, "live",
   none, none, none, 0, none⟩

/-- State holding only the sample match. -/
def exStM : DBState := ⟨[], [], [], [exMatch], 2⟩

/-- State after one successful sample registration. -/
def exStU : DBState :=
  (register shaEx SECRET 10 DBState.empty "Alice" "alice@x.com" "pw1" none).2

/-- A sample serialized document input. -/
def exDoc : Dict :=
  [("_id", .vId 7), ("email", .vStr "a@x.com"), ("created_at", .vDT 100)]

/-- A sample ObjectId or datetime rendering. -/
def exRender : Nat → String := fun n => "r" ++ toString n

/-! Helper lemmas about the most-recent-membership lookup. -/

theorem mostRecent_eq_none {l : List Gymmembership} :
    mostRecent l = none ↔ l = [] := by
  cases l with
  | nil => simp [mostRecent]
  | cons a as =>
    simp only [mostRecent]
    cases mostRecent as with
    | none => simp
    | some r =>
      by_cases h : r.created_at > a.created_at <;> simp [h]

theorem mostRecent_mem {l : List Gymmembership} {m : Gymmembership}
    (h : mostRecent l = some m) : m ∈ l := by
  induction l with
  | nil => simp [mostRecent] at h
  | cons a as ih =>
    simp only [mostRecent] at h
    cases hr : mostRecent as with
    | none =>
      simp only [hr] at h
      cases h
      exact List.mem_cons_self _ _
    | some r =>
      simp only [hr] at h
      by_cases hgt : r.created_at > a.created_at
      · rw [if_pos hgt] at h
        cases h
        exact List.mem_cons_of_mem _ (ih hr)
      · rw [if_neg hgt] at h
        cases h
        exact List.mem_cons_self _ _

theorem mostRecent_ge {l : List Gymmembership} {m : Gymmembership}
    (h : mostRecent l = some m) :
    ∀ g ∈ l, g.created_at ≤ m.created_at := by
  induction l generalizing m with
  | nil => simp [mostRecent] at h
  | cons a as ih =>
    simp only [mostRecent] at h
    cases hr : mostRecent as with
    | none =>
      simp only [hr] at h
      cases h
      have : as = [] := mostRecent_eq_none.mp hr
      subst this
      intro g hg
      simp at hg
      subst hg
      exact Nat.le_refl _
    | some r =>
      simp only [hr] at h
      intro g hg
      rcases List.mem_cons.mp hg with hga | hgas
      · subst hga
        by_cases hgt : r.created_at > g.created_at
        · rw [if_pos hgt] at h
          cases h
          exact Nat.le_of_lt hgt
        · rw [if_neg hgt] at h
          cases h
          exact Nat.le_refl _
      · by_cases hgt : r.created_at > a.created_at
        · rw [if_pos hgt] at h
          cases h
          exact ih hr g hgas
        · rw [if_neg hgt] at h
          cases h
          exact Nat.le_trans (ih hr g hgas) (Nat.le_of_not_lt hgt)

theorem mostRecentFor_mem {e : String} {l : List Gymmembership} {m : Gymmembership}
    (h : mostRecentFor e l = some m) : m ∈ l ∧ m.email = e := by
  have hmem := mostRecent_mem h
  rw [List.mem_filter] at hmem
  exact ⟨hmem.1, by simpa using hmem.2⟩

theorem mostRecentFor_isSome {e : String} {l : List Gymmembership}
    (h : ∃ g ∈ l, g.email = e) : ∃ m, mostRecentFor e l = some m := by
  obtain ⟨g, hg, hge⟩ := h
  cases hr : mostRecentFor e l with
  | some m => exact ⟨m, rfl⟩
  | none =>
    exfalso
    have : l.filter (fun m => m.email == e) = [] := mostRecent_eq_none.mp hr
    have hmem : g ∈ l.filter (fun m => m.email == e) := by
      rw [List.mem_filter]
      exact ⟨hg, by simpa using hge⟩
    rw [this] at hmem
    simp at hmem

theorem mostRecentFor_ge {e : String} {l : List Gymmembership} {m : Gymmembership}
    (h : mostRecentFor e l = some m) :
    ∀ g ∈ l, g.email = e → g.created_at ≤ m.created_at := by
  intro g hg hge
  refine mostRecent_ge h g ?_
  rw [List.mem_filter]
  exact ⟨hg, by simpa using hge⟩

theorem find?_map_update {l : List Gymmembership} {k : Nat} {mnew : Gymmembership}
    (hk : mnew.oid = k) (hex : ∃ x ∈ l, x.oid = k) :
    (l.map (fun x => if x.oid == k then mnew else x)).find? (fun x => x.oid == k)
      = some mnew := by
  induction l with
  | nil => simp at hex
  | cons a as ih =>
    by_cases ha : a.oid = k
    · simp [List.find?_cons, ha, hk]
    · have hex2 : ∃ x ∈ as, x.oid = k := by
        obtain ⟨x, hx, hxk⟩ := hex
        rcases List.mem_cons.mp hx with hxa | hxas
        · subst hxa; exact absurd hxk ha
        · exact ⟨x, hxas, hxk⟩
      simpa [List.find?_cons, ha] using ih hex2

theorem create_payment_none_spec (now : Nat) (st : DBState) (email : String)
    (amount : Int) (purpose method : String) (reference : Option String)
    (h : mostRecentFor email st.gymmemberships = none) :
    (create_payment now st email amount purpose method reference).1.1 = st.nextId
  ∧ (create_payment now st email amount purpose method reference).1.2.1 = "success"
  ∧ (create_payment now st email amount purpose method reference).1.2.2 = none
  ∧ (create_payment now st email amount purpose method reference).2.gymmemberships
      = st.gymmemberships
  ∧ ∃ p : Payment,
      (create_payment now st email amount purpose method reference).2.payments
        = st.payments ++ [p] ∧ p.oid = st.nextId := by
  simp only [create_payment, h]
  exact ⟨trivial, trivial, trivial, trivial, _, rfl, rfl⟩

theorem create_payment_some_spec (now : Nat) (st : DBState) (email : String)
    (amount : Int) (purpose method : String) (reference : Option String)
    (m : Gymmembership)
    (hm : mostRecentFor email st.gymmemberships = some m) :
    (create_payment now st email amount purpose method reference).1.1 = st.nextId
  ∧ (create_payment now st email amount purpose method reference).1.2.1 = "success"
  ∧ (create_payment now st email amount purpose method reference).2.gymmemberships
      = st.gymmemberships.map (fun x => if x.oid == m.oid then activated now m else x)
  ∧ (create_payment now st email amount purpose method reference).1.2.2
      = (st.gymmemberships.map
          (fun x => if x.oid == m.oid then activated now m else x)).find?
            (fun x => x.oid == m.oid) := by
  simp only [create_payment, hm, activated]
  exact ⟨trivial, trivial, trivial, trivial⟩

/-- C1: for every payment request whose email has at least one gym membership,
create_payment sets the most recent membership to status active and persists
start_date and end_date with end_date minus start_date exactly 30 days for plan
monthly, 90 for quarterly and 365 for any other plan, start_date being the
activation time. -/
theorem payment_activates_most_recent_with_window
    (now : Nat) (st : DBState) (email : String) (amount : Int)
    (purpose method : String) (reference : Option String)
    (hex : ∃ g ∈ st.gymmemberships, g.email = email) :
    ∃ m g, mostRecentFor email st.gymmemberships = some m
      ∧ (create_payment now st email amount purpose method reference).1.2.2 = some g
      ∧ (create_payment now st email amount purpose method
          reference).2.gymmemberships.find? (fun x => x.oid == m.oid) = some g
      ∧ g.status = "active"
      ∧ g.start_date = some now
      ∧ g.end_date = some (now +
          (if m.plan = "monthly" then 30
           else if m.plan = "quarterly" then 90 else 365) * secondsPerDay)
      ∧ (∀ e s, g.end_date = some e → g.start_date = some s →
          e - s = (if m.plan = "monthly" then 30
            else if m.plan = "quarterly" then 90 else 365) * secondsPerDay) := by
  obtain ⟨m, hm⟩ := mostRecentFor_isSome hex
  obtain ⟨h1, h2, h3, h4⟩ :=
    create_payment_some_spec now st email amount purpose method reference m hm
  have hmem := (mostRecentFor_mem hm).1
  have hfind : (st.gymmemberships.map
      (fun x => if x.oid == m.oid then activated now m else x)).find?
        (fun x => x.oid == m.oid) = some (activated now m) :=
    find?_map_update rfl ⟨m, hmem, rfl⟩
  refine ⟨m, activated now m, hm, ?_, ?_, rfl, rfl, ?_, ?_⟩
  · rw [h4, hfind]
  · rw [h3, hfind]
  · simp [activated]
  · intro e s he hs
    simp [activated] at he hs
    subst hs
    rw [← he, Nat.add_sub_cancel_left]
    simp [ite_mul]

/-- C6: create_payment activates whatever membership is most recent by
created_at for the email, regardless of that membership's current status, with
fresh start and end dates. -/
theorem payment_activates_regardless_of_status
    (now : Nat) (st : DBState) (email : String) (amount : Int)
    (purpose method : String) (reference : Option String) (m : Gymmembership)
    (hm : mostRecentFor email st.gymmemberships = some m) :
    m ∈ st.gymmemberships ∧ m.email = email
  ∧ (∀ g ∈ st.gymmemberships, g.email = email → g.created_at ≤ m.created_at)
  ∧ (create_payment now st email amount purpose method
      reference).2.gymmemberships.find? (fun x => x.oid == m.oid)
        = some (activated now m)
  ∧ (activated now m).status = "active"
  ∧ (activated now m).start_date = some now := by
  obtain ⟨hmem, hemail⟩ := mostRecentFor_mem hm
  obtain ⟨h1, h2, h3, h4⟩ :=
    create_payment_some_spec now st email amount purpose method reference m hm
  refine ⟨hmem, hemail, mostRecentFor_ge hm, ?_, rfl, rfl⟩
  rw [h3]
  exact find?_map_update rfl ⟨m, hmem, rfl⟩

/-- C7: a payment against an email with no gym membership still returns success
with a payment identifier and membership absent, and leaves the gymmembership
collection unchanged. -/
theorem payment_without_membership_frame
    (now : Nat) (st : DBState) (email : String) (amount : Int)
    (purpose method : String) (reference : Option String)
    (h : ∀ g ∈ st.gymmemberships, g.email ≠ email) :
    (create_payment now st email amount purpose method reference).1.1 = st.nextId
  ∧ (create_payment now st email amount purpose method reference).1.2.1 = "success"
  ∧ (create_payment now st email amount purpose method reference).1.2.2 = none
  ∧ (create_payment now st email amount purpose method reference).2.gymmemberships
      = st.gymmemberships
  ∧ ∃ p : Payment,
      (create_payment now st email amount purpose method reference).2.payments
        = st.payments ++ [p] ∧ p.oid = st.nextId := by
  have hfil : st.gymmemberships.filter (fun m => m.email == email) = [] := by
    rw [List.filter_eq_nil_iff]
    intro g hg
    simpa using h g hg
  have hnone : mostRecentFor email st.gymmemberships = none := by
    simp [mostRecentFor, hfil, mostRecent]
  exact create_payment_none_spec now st email amount purpose method reference hnone

theorem payment_activation_window_witness :
    ∃ m g, mostRecentFor "a@x.com" exSt1.gymmemberships = some m
      ∧ (create_payment 200 exSt1 "a@x.com" 500 "gym_membership" "upi" none).1.2.2
          = some g
      ∧ (create_payment 200 exSt1 "a@x.com" 500 "gym_membership" "upi"
          none).2.gymmemberships.find? (fun x => x.oid == m.oid) = some g
      ∧ g.status = "active"
      ∧ g.start_date = some 200
      ∧ g.end_date = some (200 +
          (if m.plan = "monthly" then 30
           else if m.plan = "quarterly" then 90 else 365) * secondsPerDay)
      ∧ (∀ e s, g.end_date = some e → g.start_date = some s →
          e - s = (if m.plan = "monthly" then 30
            else if m.plan = "quarterly" then 90 else 365) * secondsPerDay) :=
  payment_activates_most_recent_with_window 200 exSt1 "a@x.com" 500
    "gym_membership" "upi" none
    ⟨⟨1, "a@x.com", "monthly", "pending", none, none, 100⟩, by decide, rfl⟩

theorem payment_activates_expired_witness :
    exExpired ∈ exStE.gymmemberships ∧ exExpired.email = "b@x.com"
  ∧ (∀ g ∈ exStE.gymmemberships, g.email = "b@x.com" →
      g.created_at ≤ exExpired.created_at)
  ∧ (create_payment 300 exStE "b@x.com" 1000 "gym_membership" "card"
      (some "R1")).2.gymmemberships.find? (fun x => x.oid == exExpired.oid)
        = some (activated 300 exExpired)
  ∧ (activated 300 exExpired).status = "active"
  ∧ (activated 300 exExpired).start_date = some 300 :=
  payment_activates_regardless_of_status 300 exStE "b@x.com" 1000
    "gym_membership" "card" (some "R1") exExpired (by decide)

theorem payment_without_membership_witness :
    (create_payment 400 exStE "zz@x.com" 50 "other" "cash" none).1.1
        = exStE.nextId
  ∧ (create_payment 400 exStE "zz@x.com" 50 "other" "cash" none).1.2.1 = "success"
  ∧ (create_payment 400 exStE "zz@x.com" 50 "other" "cash" none).1.2.2 = none
  ∧ (create_payment 400 exStE "zz@x.com" 50 "other" "cash" none).2.gymmemberships
      = exStE.gymmemberships
  ∧ ∃ p : Payment,
      (create_payment 400 exStE "zz@x.com" 50 "other" "cash" none).2.payments
        = exStE.payments ++ [p] ∧ p.oid = exStE.nextId :=
  payment_without_membership_frame 400 exStE "zz@x.com" 50 "other" "cash" none
    (by decide)

/-- C2: when a pending or active membership already exists for the email,
create_membership returns it unchanged and inserts nothing, so a repeated call
returns the identical record; a new pending record is created exactly when no
pending or active membership exists. -/
theorem membership_create_idempotent
    (now now2 : Nat) (st : DBState) (email plan plan2 : String) :
    (∀ m, st.gymmemberships.find? (pendingOrActive email) = some m →
        create_membership now st email plan = (m, st))
  ∧ (st.gymmemberships.find? (pendingOrActive email) = none →
        (create_membership now st email plan).1.status = "pending"
      ∧ (create_membership now st email plan).2.gymmemberships
          = st.gymmemberships ++ [(create_membership now st email plan).1])
  ∧ create_membership now2 (create_membership now st email plan).2 email plan2
      = create_membership now st email plan := by
  refine ⟨?_, ?_, ?_⟩
  · intro m hm
    simp [create_membership, hm]
  · intro h
    simp [create_membership, h]
  · cases h : st.gymmemberships.find? (pendingOrActive email) with
    | some m => simp [create_membership, h]
    | none =>
      simp only [create_membership, h]
      rw [List.find?_append, h]
      simp [pendingOrActive]

theorem membership_create_idempotent_witness :
    create_membership 300 exSt1 "a@x.com" "yearly"
      = (⟨1, "a@x.com", "monthly", "pending", none, none, 100⟩, exSt1) :=
  (membership_create_idempotent 300 0 exSt1 "a@x.com" "yearly" "zz").1
    ⟨1, "a@x.com", "monthly", "pending", none, none, 100⟩ (by decide)

/-- C3 counterexample: in a concrete run, after a payment activated the only
membership of the email, a later create-membership call returns the existing
active record and leaves the collection unchanged, rather than creating a new
pending record. -/
theorem membership_after_activation_counterexample :
    exSt2.gymmemberships.map Gymmembership.status = ["active"]
  ∧ (create_membership 300 exSt2 "a@x.com" "monthly").2 = exSt2
  ∧ (create_membership 300 exSt2 "a@x.com" "monthly").1.status = "active"
  ∧ (create_membership 300 exSt2 "a@x.com" "monthly").2.gymmemberships.length
      = 1 := by
  decide

/-- C3 amended: after a payment has activated an email's membership, a
subsequent create-membership call returns that existing active record unchanged
and creates nothing; a new record is created only once no membership of the
email is pending or active. -/
theorem membership_after_activation_returns_active
    (now : Nat) (st : DBState) (email plan : String) (m : Gymmembership)
    (hm : st.gymmemberships.find? (pendingOrActive email) = some m)
    (_hactive : m.status = "active") :
    create_membership now st email plan = (m, st) := by
  simp [create_membership, hm]

theorem membership_after_activation_witness :
    create_membership 300 exSt2 "a@x.com" "monthly"
      = (⟨1, "a@x.com", "monthly", "active", some 200, some 2592200, 100⟩, exSt2) :=
  membership_after_activation_returns_active 300 exSt2 "a@x.com" "monthly"
    ⟨1, "a@x.com", "monthly", "active", some 200, some 2592200, 100⟩
    (by decide) rfl

/-- C9: a PATCH update-match request whose body contains no fields returns
updated false and performs no write at all. -/
theorem update_match_empty_body_no_write
    (now : Nat) (st : DBState) (oid : Nat) (r : MatchUpdateRequest)
    (h1 : r.status = none) (h2 : r.score_a = none) (h3 : r.score_b = none)
    (h4 : r.details = none) :
    update_match now st oid r = (.notUpdated, st) := by
  simp [update_match, h1, h2, h3, h4]

theorem update_match_empty_body_witness :
    update_match 500 exStM 1 ⟨none, none, none, none⟩ = (.notUpdated, exStM) :=
  update_match_empty_body_no_write 500 exStM 1 ⟨none, none, none, none⟩
    rfl rfl rfl rfl

/-- C10: an empty-string sport or status query parameter is treated the same
as an absent one, so the result equals the unfiltered listing up to the
limit. -/
theorem list_matches_empty_string_filter
    (st : DBState) (sport status : Option String) (limit : Nat) :
    list_matches st (some "") status limit = list_matches st none status limit
  ∧ list_matches st sport (some "") limit = list_matches st sport none limit
  ∧ list_matches st (some "") (some "") limit = st.matchdocs.take limit := by
  refine ⟨?_, ?_, ?_⟩
  · simp [list_matches, truthyStr]
  · simp [list_matches, truthyStr]
  · have hfil : st.matchdocs.filter (matchesDoc ⟨none, none⟩) = st.matchdocs :=
      List.filter_eq_self.mpr (fun a _ => rfl)
    simp [list_matches, truthyStr, get_documents, hfil]

/-- C4: login succeeds, returning the deterministic token, email and stored
name, exactly when a user with the email is stored and the recomputed hash of
the password with the secret equals the stored password hash; every failure is
the 401 Invalid credentials error and nothing else. -/
theorem login_success_iff_hash_match (sha256hex : String → String)
    (secret : String) (st : DBState) (email password : String) :
    ((∃ r, login sha256hex secret st email password = .ok r)
       ↔ ∃ u, st.users.find? (fun v => v.email == email) = some u
            ∧ u.password_hash = hash_password sha256hex password secret)
  ∧ (∀ u, st.users.find? (fun v => v.email == email) = some u →
        u.password_hash = hash_password sha256hex password secret →
        login sha256hex secret st email password
          = .ok (hash_password sha256hex email secret, email, u.name))
  ∧ (∀ er, login sha256hex secret st email password = .error er →
        er = (401, "Invalid credentials")) := by
  refine ⟨⟨?_, ?_⟩, ?_, ?_⟩
  · intro hok
    obtain ⟨r, hr⟩ := hok
    cases hf : st.users.find? (fun v => v.email == email) with
    | none => simp [login, hf] at hr
    | some u =>
      by_cases hpw : u.password_hash = hash_password sha256hex password secret
      · exact ⟨u, rfl, hpw⟩
      · simp [login, hf, hpw] at hr
  · intro hex
    obtain ⟨u, hu, hup⟩ := hex
    exact ⟨(hash_password sha256hex email secret, email, u.name),
      by simp [login, hu, hup]⟩
  · intro u hu hup
    simp [login, hu, hup]
  · intro er her
    cases hf : st.users.find? (fun v => v.email == email) with
    | none =>
      simp only [login, hf] at her
      cases her
      rfl
    | some u =>
      by_cases hpw : u.password_hash = hash_password sha256hex password secret
      · simp [login, hf, hpw] at her
      · simp only [login, hf] at her
        rw [if_pos (by simpa using hpw)] at her
        cases her
        rfl

theorem login_success_witness :
    login shaEx SECRET exStU "alice@x.com" "pw1"
      = .ok (hash_password shaEx "alice@x.com" SECRET, "alice@x.com", "Alice") :=
  (login_success_iff_hash_match shaEx SECRET exStU "alice@x.com" "pw1").2.1
    ⟨1, "Alice", "alice@x.com", hash_password shaEx "pw1" SECRET, "student",
     none, true, 10⟩ (by decide) rfl

theorem register_conflict_of_mem (sha256hex : String → String)
    (secret : String) (now2 : Nat) (st : DBState)
    (name2 email password2 : String) (phone2 : Option String)
    (h : ∃ u ∈ st.users, u.email = email) :
    register sha256hex secret now2 st name2 email password2 phone2
      = (.error (400, "Email already registered"), st) := by
  have hany : st.users.any (fun u => u.email == email) = true := by
    rw [List.any_eq_true]
    obtain ⟨u, hu, hue⟩ := h
    exact ⟨u, hu, by simpa using hue⟩
  simp [register, hany]

theorem register_success_of_not_mem (sha256hex : String → String)
    (secret : String) (now : Nat) (st : DBState)
    (name email password : String) (phone : Option String)
    (h : ∀ u ∈ st.users, u.email ≠ email) :
    register sha256hex secret now st name email password phone
      = (.ok (st.nextId, hash_password sha256hex email secret, email, name),
         { st with
           users := st.users ++ [⟨st.nextId, name, email,
             hash_password sha256hex password secret, "student", phone, true, now⟩],
           nextId := st.nextId + 1 }) := by
  have hany : st.users.any (fun u => u.email == email) = false := by
    rw [List.any_eq_false]
    intro u hu
    simpa using h u hu
  simp [register, hany]

/-- C5: the first registration of an email succeeds and stores the user with
role student and is_active true; a second attempt for the same email fails
with the 400 conflict error regardless of the other fields and inserts
nothing. -/
theorem duplicate_registration_conflict (sha256hex : String → String)
    (secret : String) (now now2 : Nat) (st : DBState)
    (name email password : String) (phone : Option String)
    (name2 password2 : String) (phone2 : Option String) :
    ((∀ u ∈ st.users, u.email ≠ email) →
        (register sha256hex secret now st name email password phone).1
            = .ok (st.nextId, hash_password sha256hex email secret, email, name)
      ∧ ∃ u : User,
          (register sha256hex secret now st name email password phone).2.users
              = st.users ++ [u]
            ∧ u.email = email ∧ u.role = "student" ∧ u.is_active = true
            ∧ u.password_hash = hash_password sha256hex password secret)
  ∧ ((∃ u ∈ st.users, u.email = email) →
        register sha256hex secret now2 st name2 email password2 phone2
          = (.error (400, "Email already registered"), st))
  ∧ ((∀ u ∈ st.users, u.email ≠ email) →
        register sha256hex secret now2
            (register sha256hex secret now st name email password phone).2
            name2 email password2 phone2
          = (.error (400, "Email already registered"),
             (register sha256hex secret now st name email password phone).2)) := by
  refine ⟨?_, ?_, ?_⟩
  · intro h
    rw [register_success_of_not_mem sha256hex secret now st name email password
      phone h]
    exact ⟨rfl, _, rfl, rfl, rfl, rfl, rfl⟩
  · intro h
    exact register_conflict_of_mem sha256hex secret now2 st name2 email
      password2 phone2 h
  · intro h
    apply register_conflict_of_mem
    rw [register_success_of_not_mem sha256hex secret now st name email password
      phone h]
    exact ⟨_, List.mem_append_right _ (List.mem_singleton.mpr rfl), rfl⟩

theorem duplicate_registration_witness :
    register shaEx SECRET 20 exStU "Mallory" "alice@x.com" "pw2" (some "123")
      = (.error (400, "Email already registered"), exStU) :=
  (duplicate_registration_conflict shaEx SECRET 10 20 DBState.empty "Alice"
      "alice@x.com" "pw1" none "Mallory" "pw2" (some "123")).2.2
    (by intro u hu; simp [DBState.empty] at hu)

/-! Lemmas about the dict operations underlying serialize_doc. -/

theorem renderDT_noDT (isoStr : Nat → String) (d : Dict) :
    ∀ p ∈ d.map (renderDT isoStr), ∀ t, p.2 ≠ Value.vDT t := by
  intro p hp t
  rw [List.mem_map] at hp
  obtain ⟨q, hq, rfl⟩ := hp
  obtain ⟨k, v⟩ := q
  cases v <;> simp [renderDT]

theorem map_renderDT_id (isoStr : Nat → String) (d : Dict)
    (h : ∀ p ∈ d, ∀ t, p.2 ≠ Value.vDT t) : d.map (renderDT isoStr) = d := by
  induction d with
  | nil => rfl
  | cons p d ih =>
    have hp : renderDT isoStr p = p := by
      obtain ⟨k, v⟩ := p
      cases v with
      | vDT t => exact absurd rfl (h ⟨k, Value.vDT t⟩ (List.mem_cons_self _ _) t)
      | vId n => rfl
      | vStr s2 => rfl
      | vInt n => rfl
      | vBool b => rfl
      | vNull => rfl
    rw [List.map_cons, hp, ih (fun q hq t => h q (List.mem_cons_of_mem _ hq) t)]

theorem getD_map_renderDT (isoStr : Nat → String) (k : String) (d : Dict) :
    getD k (d.map (renderDT isoStr)) = (getD k d).map (renderVal isoStr) := by
  induction d with
  | nil => rfl
  | cons p d ih =>
    obtain ⟨k1, v⟩ := p
    cases hk : (k1 == k) with
    | true =>
      cases v <;>
        simp only [List.map_cons, getD, List.find?_cons, renderDT, hk] <;> rfl
    | false =>
      cases v <;>
        simp only [List.map_cons, getD, List.find?_cons, renderDT, hk] <;>
        exact ih

theorem getD_popD_self (k : String) (d : Dict) : getD k (popD k d) = none := by
  induction d with
  | nil => rfl
  | cons p d ih =>
    obtain ⟨k1, v⟩ := p
    cases hk : (k1 == k) with
    | true =>
      have hne : (k1 != k) = false := by simp [bne, hk]
      simpa [popD, List.filter_cons, hne] using ih
    | false =>
      have hne : (k1 != k) = true := by simp [bne, hk]
      have hih : getD k (popD k d) = none := ih
      simp only [popD, getD, List.filter_cons, hne, if_true, List.find?_cons,
        hk, Bool.false_eq_true] at hih ⊢
      exact hih

theorem getD_popD_ne (k k2 : String) (d : Dict) (hne : k2 ≠ k) :
    getD k2 (popD k d) = getD k2 d := by
  induction d with
  | nil => rfl
  | cons p d ih =>
    obtain ⟨k1, v⟩ := p
    cases hk : (k1 == k) with
    | true =>
      have hk1 : k1 = k := by simpa using hk
      have hb : (k1 == k2) = false := by
        simp only [beq_eq_false_iff_ne, ne_eq, hk1]
        exact fun hx => hne hx.symm
      have hbne : (k1 != k) = false := by simp [bne, hk]
      simpa [popD, getD, List.filter_cons, List.find?_cons, hbne, hb] using ih
    | false =>
      have hbne : (k1 != k) = true := by simp [bne, hk]
      cases hb : (k1 == k2) with
      | true =>
        simp [popD, getD, List.filter_cons, List.find?_cons, hbne, hb]
      | false =>
        simpa [popD, getD, List.filter_cons, List.find?_cons, hbne, hb] using ih

theorem find?_map_set (k : String) (v : Value) (d : Dict)
    (h : d.any (fun p => p.1 == k) = true) :
    (d.map (fun p => if p.1 == k then (k, v) else p)).find? (fun p => p.1 == k)
      = some (k, v) := by
  induction d with
  | nil => simp at h
  | cons p d ih =>
    obtain ⟨k1, w⟩ := p
    cases hk : (k1 == k) with
    | true =>
      simp only [List.map_cons, List.find?_cons, hk, if_true, beq_self_eq_true]
    | false =>
      have h2 : d.any (fun p => p.1 == k) = true := by
        rcases List.any_eq_true.mp h with ⟨x, hx, hpx⟩
        rcases List.mem_cons.mp hx with rfl | hxd
        · rw [hpx] at hk
          exact absurd hk (by simp)
        · exact List.any_eq_true.mpr ⟨x, hxd, hpx⟩
      simpa only [List.map_cons, List.find?_cons, hk, if_false,
        Bool.false_eq_true] using ih h2

theorem find?_map_set_ne (k k2 : String) (v : Value) (d : Dict) (hne : k2 ≠ k) :
    (d.map (fun p => if p.1 == k then (k, v) else p)).find? (fun p => p.1 == k2)
      = d.find? (fun p => p.1 == k2) := by
  have hkk2 : (k == k2) = false := by
    simp only [beq_eq_false_iff_ne, ne_eq]
    exact fun hx => hne hx.symm
  induction d with
  | nil => rfl
  | cons p d ih =>
    obtain ⟨k1, w⟩ := p
    cases hk : (k1 == k) with
    | true =>
      have hk1 : k1 = k := by simpa using hk
      have hb : (k1 == k2) = false := by rw [hk1]; exact hkk2
      simpa only [List.map_cons, List.find?_cons, hk, if_true, hkk2, hb]
        using ih
    | false =>
      cases hb : (k1 == k2) with
      | true =>
        simp only [List.map_cons, List.find?_cons, hk, if_false,
          Bool.false_eq_true, hb]
      | false =>
        simpa only [List.map_cons, List.find?_cons, hk, if_false,
          Bool.false_eq_true, hb] using ih

theorem getD_setD_self (k : String) (v : Value) (d : Dict) :
    getD k (setD k v d) = some v := by
  unfold getD setD
  cases h : d.any (fun p => p.1 == k) with
  | true =>
    rw [if_pos rfl, find?_map_set k v d h]
    rfl
  | false =>
    rw [if_neg (by simp)]
    have hnone : d.find? (fun p => p.1 == k) = none := by
      rw [List.find?_eq_none]
      intro x hx
      have := List.any_eq_false.mp h x hx
      simpa using this
    rw [List.find?_append, hnone]
    simp only [Option.none_or, List.find?_cons, beq_self_eq_true]
    rfl

theorem getD_setD_ne (k k2 : String) (v : Value) (d : Dict) (hne : k2 ≠ k) :
    getD k2 (setD k v d) = getD k2 d := by
  unfold getD setD
  cases h : d.any (fun p => p.1 == k) with
  | true =>
    rw [if_pos rfl, find?_map_set_ne k k2 v d hne]
  | false =>
    rw [if_neg (by simp)]
    have hb : (k == k2) = false := by
      simp only [beq_eq_false_iff_ne, ne_eq]
      exact fun hx => hne hx.symm
    rw [List.find?_append]
    simp only [List.find?_cons, hb, Bool.false_eq_true, List.find?_nil]
    cases d.find? (fun p => p.1 == k2) <;> rfl

theorem serialize_doc_rename (oidStr isoStr : Nat → String) (d : Dict)
    (v : Value) (hv : getD "_id" d = some v) (ht : truthy v = true) :
    serialize_doc oidStr isoStr d
      = (setD "id" (.vStr (pyStr oidStr isoStr v)) (popD "_id" d)).map
          (renderDT isoStr) := by
  cases d with
  | nil => simp [getD] at hv
  | cons p d2 => simp [serialize_doc, hv, ht]

theorem serialize_doc_keep (oidStr isoStr : Nat → String) (d : Dict)
    (h : getD "_id" d = none ∨ ∃ v, getD "_id" d = some v ∧ truthy v = false) :
    serialize_doc oidStr isoStr d = d.map (renderDT isoStr) := by
  cases d with
  | nil => rfl
  | cons p d2 =>
    rcases h with h | ⟨v, hv, ht⟩
    · simp [serialize_doc, h]
    · simp [serialize_doc, hv, ht]

theorem serialize_doc_idem (oidStr isoStr : Nat → String) (d : Dict) :
    serialize_doc oidStr isoStr (serialize_doc oidStr isoStr d)
      = serialize_doc oidStr isoStr d := by
  cases hid : getD "_id" d with
  | some v =>
    cases ht : truthy v with
    | true =>
      rw [serialize_doc_rename oidStr isoStr d v hid ht]
      have hide : getD "_id" ((setD "id" (.vStr (pyStr oidStr isoStr v))
          (popD "_id" d)).map (renderDT isoStr)) = none := by
        rw [getD_map_renderDT, getD_setD_ne _ _ _ _ (by decide), getD_popD_self]
        rfl
      rw [serialize_doc_keep _ _ _ (Or.inl hide)]
      exact map_renderDT_id _ _ (renderDT_noDT _ _)
    | false =>
      have hvndt : renderVal isoStr v = v := by
        cases v <;> first | rfl | simp [truthy] at ht
      rw [serialize_doc_keep _ _ _ (Or.inr ⟨v, hid, ht⟩)]
      have hide : getD "_id" (d.map (renderDT isoStr)) = some v := by
        rw [getD_map_renderDT, hid]
        simp [hvndt]
      rw [serialize_doc_keep _ _ _ (Or.inr ⟨v, hide, ht⟩)]
      exact map_renderDT_id _ _ (renderDT_noDT _ _)
  | none =>
    rw [serialize_doc_keep _ _ _ (Or.inl hid)]
    have hide : getD "_id" (d.map (renderDT isoStr)) = none := by
      rw [getD_map_renderDT, hid]
      rfl
    rw [serialize_doc_keep _ _ _ (Or.inl hide)]
    exact map_renderDT_id _ _ (renderDT_noDT _ _)

/-- C8: serialize_doc maps empty input to itself, renames a truthy database
identifier to a string-typed id field, renders every datetime-valued field as
ISO-8601 text while leaving every other field unchanged, and is idempotent on
already-serialized input. -/
theorem serialize_doc_contract (oidStr isoStr : Nat → String) (d : Dict) :
    serialize_doc oidStr isoStr [] = []
  ∧ serialize_doc oidStr isoStr (serialize_doc oidStr isoStr d)
      = serialize_doc oidStr isoStr d
  ∧ (∀ v, getD "_id" d = some v → truthy v = true →
        getD "_id" (serialize_doc oidStr isoStr d) = none
      ∧ getD "id" (serialize_doc oidStr isoStr d)
          = some (.vStr (pyStr oidStr isoStr v)))
  ∧ (∀ k, k ≠ "_id" → k ≠ "id" →
        getD k (serialize_doc oidStr isoStr d)
          = (getD k d).map (renderVal isoStr))
  ∧ (∀ p ∈ serialize_doc oidStr isoStr d, ∀ t, p.2 ≠ Value.vDT t) := by
  refine ⟨rfl, serialize_doc_idem oidStr isoStr d, ?_, ?_, ?_⟩
  · intro v hv ht
    rw [serialize_doc_rename oidStr isoStr d v hv ht]
    constructor
    · rw [getD_map_renderDT, getD_setD_ne _ _ _ _ (by decide), getD_popD_self]
      rfl
    · rw [getD_map_renderDT, getD_setD_self]
      rfl
  · intro k hk1 hk2
    cases hid : getD "_id" d with
    | some v =>
      cases ht : truthy v with
      | true =>
        rw [serialize_doc_rename oidStr isoStr d v hid ht, getD_map_renderDT,
          getD_setD_ne _ _ _ _ hk2, getD_popD_ne _ _ _ hk1]
      | false =>
        rw [serialize_doc_keep _ _ _ (Or.inr ⟨v, hid, ht⟩), getD_map_renderDT]
    | none =>
      rw [serialize_doc_keep _ _ _ (Or.inl hid), getD_map_renderDT]
  · cases hid : getD "_id" d with
    | some v =>
      cases ht : truthy v with
      | true =>
        rw [serialize_doc_rename oidStr isoStr d v hid ht]
        exact renderDT_noDT _ _
      | false =>
        rw [serialize_doc_keep _ _ _ (Or.inr ⟨v, hid, ht⟩)]
        exact renderDT_noDT _ _
    | none =>
      rw [serialize_doc_keep _ _ _ (Or.inl hid)]
      exact renderDT_noDT _ _

theorem serialize_doc_contract_witness :
    serialize_doc exRender exRender (serialize_doc exRender exRender exDoc)
        = serialize_doc exRender exRender exDoc
  ∧ getD "_id" (serialize_doc exRender exRender exDoc) = none
  ∧ getD "id" (serialize_doc exRender exRender exDoc)
      = some (.vStr (pyStr exRender exRender (.vId 7))) :=
  ⟨(serialize_doc_contract exRender exRender exDoc).2.1,
   ((serialize_doc_contract exRender exRender exDoc).2.2.1 (.vId 7) rfl rfl).1,
   ((serialize_doc_contract exRender exRender exDoc).2.2.1 (.vId 7) rfl rfl).2⟩

end GBU
